import Mathlib

/-!
Verification of the MorphPost workflow orchestration core.

The repository ships the frontend (TypeScript/React) and the backend's
documentation (README, API reference, database schema); the backend
Python sources themselves are not part of the file set.  Definitions
below therefore come from two places, each marked in its doc comment:

* definitions embedding frontend code that is present (the CreatePost
  validation, the ReviewWorkspace publish flow) follow that code;
* definitions whose doc comment starts with `Modelled from the spec:`
  reconstruct the missing backend component faithfully from the
  specification's words (sections 3, 4.2, 4.3 of the spec and the
  backend docs in the repository).
-/

namespace MorphPost

/-- Target platforms, per the database schema (linkedin, x, blog). -/
inductive Platform
  | linkedin
  | x
  | blog
deriving DecidableEq, Repr

/-- Per-platform status values. The first six are the database schema's
status column values; `errorTerminal` is the unrecoverable error terminal
status of spec section 7 (`ExhaustedStepFailure` / `CheckpointCorruption`). -/
inductive PSStatus
  | generating
  | evaluating
  | awaiting_review
  | accepted
  | rejected
  | published
  | errorTerminal
deriving DecidableEq, Repr

/-- Draft provenance: the schema's `source` column (`ai` or `human`). -/
inductive Provenance
  | ai
  | human
deriving DecidableEq, Repr

/-- One generated document version, per the Draft table: identifier,
content text, provenance, and the optional `based_on_id` back-reference
to the draft it supersedes. -/
structure Draft where
  id : Nat
  content : String
  source : Provenance
  basedOn : Option Nat
deriving DecidableEq, Repr

/-- The configured quality gate: acceptance threshold and the regeneration
ceiling, from src/core/config.py as quoted in the backend README. -/
structure Config where
  threshold : Nat
  maxIter : Nat
deriving DecidableEq, Repr

/-- The configured defaults: `evaluation_score_threshold = 70` and
`langgraph_max_iterations = 3` (backend README, Configuration section). -/
def defaultConfig : Config := { threshold := 70, maxIter := 3 }

/-- Modelled from the spec: the pure routing decision of the platform
state machine (spec section 4.2 step 3; the backend file
src/langgraph/nodes/route.py is not in the repository's files).  Returns
the successor status: `awaiting_review` on a passing score (inclusive
bound) or when retries are exhausted, `generating` when the Regenerate
branch loops back to Generate. -/
def routeStatus (cfg : Config) (score iter : Nat) : PSStatus :=
  if cfg.threshold ≤ score then .awaiting_review
  else if iter < cfg.maxIter then .generating
  else .awaiting_review

/-- Modelled from the spec: the full internal state of one platform state
machine (spec sections 3 and 4.2; the backend src/langgraph/state.py is
not in the repository's files).  `nextId` is the allocator for fresh
draft identifiers. -/
structure MachineState where
  status : PSStatus
  drafts : List Draft
  activeDraftId : Option Nat
  superseded : List Nat
  feedback : Option String
  lastScore : Option Nat
  iteration : Nat
  awaitingHuman : Bool
  nextId : Nat
deriving DecidableEq, Repr

/-- Modelled from the spec: the initial platform state created by `start`
(status `generating`, iteration 0, no draft). -/
def initState : MachineState :=
  { status := .generating
    drafts := []
    activeDraftId := none
    superseded := []
    feedback := none
    lastScore := none
    iteration := 0
    awaitingHuman := false
    nextId := 0 }

/-- Modelled from the spec: the Generate transition (spec section 4.2
step 1).  Persists a new ai draft superseding the prior active draft if
any, sets it active, increments the iteration counter, moves to
`evaluating`. -/
def generateStep (s : MachineState) (content : String) : MachineState :=
  { s with
    status := .evaluating
    drafts := s.drafts ++ [⟨s.nextId, content, .ai, s.activeDraftId⟩]
    activeDraftId := some s.nextId
    nextId := s.nextId + 1
    iteration := s.iteration + 1 }

/-- Modelled from the spec: the Regenerate transition (spec section 4.2
step 4).  Archives the current draft into the superseded list, clears the
active pointer, preserves the evaluation feedback, loops to `generating`. -/
def regenerate (s : MachineState) (fb : String) : MachineState :=
  { s with
    status := .generating
    superseded := s.superseded ++ s.activeDraftId.toList
    activeDraftId := none
    feedback := some fb }

/-- Modelled from the spec: the AwaitingHuman transition (spec section
4.2 step 5).  Sets the suspend flag and marks the status
`awaiting_review`. -/
def pauseForHuman (s : MachineState) : MachineState :=
  { s with status := .awaiting_review, awaitingHuman := true }

/-- Modelled from the spec: the Evaluate transition followed by the pure
Route decision (spec section 4.2 steps 2 and 3).  Records the score, then
pauses for human review on a passing score or exhausted retries, and
regenerates otherwise. -/
def evaluateStep (cfg : Config) (s : MachineState) (score : Nat) (fb : String) :
    MachineState :=
  let s1 := { s with lastScore := some score }
  if cfg.threshold ≤ score then pauseForHuman s1
  else if s.iteration < cfg.maxIter then regenerate s1 fb
  else pauseForHuman s1

/-- The four resume decisions of the resume protocol (spec section 4.3). -/
inductive Decision
  | accept
  | reject (fb : Option String)
  | edit (content : String)
  | editAndAccept (content : String)
deriving DecidableEq, Repr

/-- The resume protocol's synchronous rejection (spec section 7:
`InvalidResume`). -/
inductive ResumeFailure
  | invalidResume
deriving DecidableEq, Repr

/-- Modelled from the spec: creation of a human-authored draft during
`edit` and `editAndAccept` (spec section 4.3): a new draft with
provenance `human` superseding the previous active draft. -/
def newHumanDraft (s : MachineState) (content : String) : MachineState :=
  { s with
    drafts := s.drafts ++ [⟨s.nextId, content, .human, s.activeDraftId⟩]
    superseded := s.superseded ++ s.activeDraftId.toList
    activeDraftId := some s.nextId
    nextId := s.nextId + 1 }

/-- Modelled from the spec: the single transition a valid resume call
applies (spec section 4.3).  `accept` terminates in `accepted` with the
draft untouched; `reject` behaves like Regenerate without consuming an
automatic iteration; `edit` re-enters `awaiting_review` with the new
human draft; `editAndAccept` moves to `accepted` in one step. -/
def applyDecision (s : MachineState) (d : Decision) : MachineState :=
  match d with
  | .accept => { s with status := .accepted, awaitingHuman := false }
  | .reject fb =>
      { s with
        status := .generating
        superseded := s.superseded ++ s.activeDraftId.toList
        activeDraftId := none
        feedback := match fb with | some t => some t | none => s.feedback
        awaitingHuman := false }
  | .edit c =>
      { newHumanDraft s c with status := .awaiting_review, awaitingHuman := true }
  | .editAndAccept c =>
      { newHumanDraft s c with status := .accepted, awaitingHuman := false }

/-- Modelled from the spec: the resume protocol entry point (spec section
4.3).  Validates that the platform is currently `awaiting_review` and
applies exactly one transition; otherwise rejects synchronously with
`InvalidResume` and mutates nothing. -/
def resume (s : MachineState) (d : Decision) : Except ResumeFailure MachineState :=
  if s.status = .awaiting_review then .ok (applyDecision s d) else .error .invalidResume

/-- Modelled from the spec: the automatic transitions of one platform
state machine (Generate and Evaluate-then-Route). -/
inductive AutoStep (cfg : Config) : MachineState → MachineState → Prop
  | generate {s : MachineState} (c : String) (h : s.status = .generating) :
      AutoStep cfg s (generateStep s c)
  | evaluate {s : MachineState} (score : Nat) (fb : String) (h : s.status = .evaluating) :
      AutoStep cfg s (evaluateStep cfg s score fb)

/-- Modelled from the spec: any transition of one platform state machine,
automatic or human-triggered through the resume protocol. -/
inductive Step (cfg : Config) : MachineState → MachineState → Prop
  | auto {s s' : MachineState} (h : AutoStep cfg s s') : Step cfg s s'
  | human {s s' : MachineState} (d : Decision)
      (h : resume s d = .ok s') : Step cfg s s'

/-- States reachable from the initial platform state by automatic
transitions only (the generate/evaluate/route loop before the first
human decision). -/
inductive ReachAuto (cfg : Config) : MachineState → Prop
  | init : ReachAuto cfg initState
  | step {s s' : MachineState} (hr : ReachAuto cfg s) (hs : AutoStep cfg s s') :
      ReachAuto cfg s'

/-- States reachable from the initial platform state by any sequence of
transitions, human resume decisions included. -/
inductive Reach (cfg : Config) : MachineState → Prop
  | init : Reach cfg initState
  | step {s s' : MachineState} (hr : Reach cfg s) (hs : Step cfg s s') :
      Reach cfg s'

/-! Workflow-level status aggregation (claim C2). -/

/-- Workflow-level status values, per the Workflow table of the database
schema. -/
inductive WStatus
  | running
  | awaiting_review
  | completed
  | failed
deriving DecidableEq, Repr

/-- A platform state is terminal when it is accepted, published or
terminal-rejected (spec section 4.1). -/
def isTerminalStatus (st : PSStatus) : Bool :=
  st == .accepted || st == .published || st == .rejected

/-- A platform state is still actively generating while its automatic
loop is in flight: the `generating` or `evaluating` status. -/
def isGeneratingStatus (st : PSStatus) : Bool :=
  st == .generating || st == .evaluating

/-- A platform state has its awaiting-human flag set exactly in status
`awaiting_review` (spec section 4.2 step 5 sets both together). -/
def hasAwaitingFlag (st : PSStatus) : Bool :=
  st == .awaiting_review

/-- Modelled from the spec: the derived workflow-level status computed by
`getStatus` from the per-platform states (spec section 4.1; the backend
src/services/workflow_service.py is not in the repository's files).  The
conditions are tried in the order the spec lists them: completed,
awaiting_review, failed, otherwise running. -/
def deriveWorkflowStatus (pss : List PSStatus) : WStatus :=
  if pss.all isTerminalStatus then .completed
  else if pss.any hasAwaitingFlag && !(pss.any isGeneratingStatus) then .awaiting_review
  else if pss.any (fun st => st == .errorTerminal) && !(pss.any isGeneratingStatus) then
    .failed
  else .running

/-! Checkpoint store (claim C7). -/

/-- Checkpoints are keyed by (workflow identifier, platform), per spec
section 3. -/
structure CheckpointKey where
  workflowId : Nat
  platform : Platform
deriving DecidableEq, Repr

/-- Modelled from the spec: the snapshot of a platform state a checkpoint
carries — status, active draft id, iteration counter, awaiting-human
flag (spec sections 3 and 8). -/
structure Checkpoint where
  status : PSStatus
  activeDraftId : Option Nat
  iteration : Nat
  awaitingHuman : Bool
deriving DecidableEq, Repr

/-- The checkpoint snapshot of a machine state. -/
def checkpointOf (s : MachineState) : Checkpoint :=
  { status := s.status
    activeDraftId := s.activeDraftId
    iteration := s.iteration
    awaitingHuman := s.awaitingHuman }

/-- Serialization of a status into a byte, for the checkpointer's BYTEA
`checkpoint` column (database schema, LangGraph checkpointer tables). -/
def encodeStatus : PSStatus → Nat
  | .generating => 0
  | .evaluating => 1
  | .awaiting_review => 2
  | .accepted => 3
  | .rejected => 4
  | .published => 5
  | .errorTerminal => 6

/-- Deserialization of a status byte. -/
def decodeStatus : Nat → Option PSStatus
  | 0 => some .generating
  | 1 => some .evaluating
  | 2 => some .awaiting_review
  | 3 => some .accepted
  | 4 => some .rejected
  | 5 => some .published
  | 6 => some .errorTerminal
  | _ => none

/-- Serialization of the nullable active draft id (0 encodes null). -/
def encodeOptNat : Option Nat → Nat
  | none => 0
  | some n => n + 1

/-- Deserialization of the nullable active draft id. -/
def decodeOptNat : Nat → Option Nat
  | 0 => none
  | n + 1 => some n

/-- Modelled from the spec: serialization of a checkpoint into the stored
byte list. -/
def encodeCheckpoint (c : Checkpoint) : List Nat :=
  [encodeStatus c.status, encodeOptNat c.activeDraftId, c.iteration,
   cond c.awaitingHuman 1 0]

/-- Modelled from the spec: deserialization of a stored checkpoint. -/
def decodeCheckpoint : List Nat → Option Checkpoint
  | [st, ad, iter, ah] =>
      (decodeStatus st).map fun s =>
        { status := s, activeDraftId := decodeOptNat ad, iteration := iter,
          awaitingHuman := ah == 1 }
  | _ => none

/-- The durable checkpoint log: newest entry first, serialized payloads. -/
def CheckpointLog : Type := List (CheckpointKey × List Nat)

/-- Modelled from the spec: `saveCheckpoint` appends a serialized snapshot
under its key; the latest checkpoint per key is authoritative (spec
sections 3 and 6). -/
def saveCheckpoint (log : CheckpointLog) (k : CheckpointKey) (c : Checkpoint) :
    CheckpointLog :=
  (k, encodeCheckpoint c) :: log

/-- Modelled from the spec: `loadCheckpoint` returns the latest checkpoint
stored under the key, deserialized. -/
def loadCheckpoint (log : CheckpointLog) (k : CheckpointKey) : Option Checkpoint :=
  match log.find? (fun e => decide (e.1 = k)) with
  | some e => decodeCheckpoint e.2
  | none => none

/-! Workflow creation (claim C8). -/

/-- Creation modes, per the Workflow table (`manual` or `template`). -/
inductive Mode
  | manual
  | template
deriving DecidableEq, Repr

/-- A workflow specification as submitted to `start`: creation mode, the
manual-mode source content, the template-mode goal, and the target
platforms. -/
structure WorkflowSpec where
  mode : Mode
  content : String
  goal : String
  platforms : List Platform
deriving DecidableEq, Repr

/-- A string is blank when every character is whitespace — exactly the
condition under which the page's trim() check sees an empty string. -/
def blankStr (s : String) : Bool :=
  s.data.all Char.isWhitespace

/-- Embeds the validation at the head of handleGenerate in the CreatePost
page (frontend source in the repository): the request is aborted when no
platform is selected, when manual mode has blank content (empty after
trimming), or when template mode has a blank goal. -/
def specValid (w : WorkflowSpec) : Bool :=
  !w.platforms.isEmpty &&
    (match w.mode with
     | .manual => !(blankStr w.content)
     | .template => !(blankStr w.goal))

/-- One persisted per-platform state row, per the PlatformState table. -/
structure PlatformStateRow where
  platform : Platform
  status : PSStatus
  activeDraftId : Option Nat
  iteration : Nat
deriving DecidableEq, Repr

/-- One persisted workflow with its platform state rows. -/
structure StoredWorkflow where
  id : Nat
  platformStates : List PlatformStateRow
deriving DecidableEq, Repr

/-- The fail-fast rejection of a bad workflow specification (spec section
7: `InvalidSpec`). -/
inductive StartFailure
  | invalidSpec
deriving DecidableEq, Repr

/-- The initial platform state row `start` persists per requested
platform: status `generating`, iteration 0, no active draft. -/
def initialRow (p : Platform) : PlatformStateRow :=
  { platform := p, status := .generating, activeDraftId := none, iteration := 0 }

/-- Modelled from the spec: `start(workflowSpec)` (spec section 4.1; the
backend create endpoint and workflow service are not in the repository's
files).  Validates the spec first — failing with `InvalidSpec` and an
unchanged store — then persists the workflow with one initial platform
state per requested platform and returns the fresh workflow identifier. -/
def startWorkflow (w : WorkflowSpec) (store : List StoredWorkflow) :
    Except StartFailure Nat × List StoredWorkflow :=
  if specValid w then
    (.ok store.length, store ++ [⟨store.length, w.platforms.map initialRow⟩])
  else
    (.error .invalidSpec, store)

/-! Publishing guard (claim C9). -/

/-- Embeds the ReviewWorkspace render guard (frontend source in the
repository): the Publish-or-Schedule button is offered exactly when the
platform status is `accepted`. -/
def showPublishButton (st : PSStatus) : Bool :=
  st == .accepted

/-- Publishing job status values, per the PublishingJob table. -/
inductive JobStatus
  | queued
  | scheduled
  | publishing
  | published
  | failed
deriving DecidableEq, Repr

/-- One publishing job handle, per the PublishingJob table. -/
structure PublishingJob where
  platform : Platform
  status : JobStatus
  scheduledFor : Option Nat
deriving DecidableEq, Repr

/-- The publish endpoint's rejection of a platform that is not accepted
(API reference: 400, platform not accepted or already published). -/
inductive PublishFailure
  | notAccepted
deriving DecidableEq, Repr

/-- Modelled from the spec: the publish capability guard (spec section 6
invokes `publish` only after a platform state reaches `Accepted`; the
backend publish endpoint is not in the repository's files).  A platform
whose state is not `accepted` is rejected and no job is created;
otherwise a job is queued, or scheduled when a schedule time is given. -/
def publishPlatform (row : PlatformStateRow) (scheduleTime : Option Nat) :
    Except PublishFailure PublishingJob :=
  if row.status = .accepted then
    .ok { platform := row.platform
          status := match scheduleTime with | some _ => .scheduled | none => .queued
          scheduledFor := scheduleTime }
  else
    .error .notAccepted

/-! Confirm-publish flow of the review workspace (claim C10). -/

/-- The review workspace's schedule/publish modal state: whether the
modal is open, the platform being published, the optionally selected
schedule date (start of the selected day) and the selected time.
Timestamps are minutes; a date value is the minute count at midnight of
the selected day, mirroring the Date arithmetic of the page. -/
structure PublishModal where
  scheduleModalOpen : Bool
  selectedPlatform : Option Platform
  scheduledDate : Option Nat
  scheduledHour : Nat
  scheduledMinute : Nat
deriving DecidableEq, Repr

/-- What one call of the confirm-publish handler does: nothing (guard on
missing workflow or platform), a validation error with no request, or a
publish/schedule request with its optional publish time. -/
inductive ConfirmResult
  | noRequest
  | invalidTime
  | requested (platform : Platform) (publishAt : Option Nat)
deriving DecidableEq, Repr

/-- The combined date-and-time the handler builds: the selected day with
its hours and minutes set from the time field. -/
def combineDateTime (dayStart hour minute : Nat) : Nat :=
  dayStart + hour * 60 + minute

/-- The modal state after a successful publish/schedule request: the
modal is closed, the date and platform are cleared and the time resets
to 12:00 (the page's state updates on the success path). -/
def resetModal : PublishModal :=
  { scheduleModalOpen := false
    selectedPlatform := none
    scheduledDate := none
    scheduledHour := 12
    scheduledMinute := 0 }

/-- Embeds handleConfirmPublish of the ReviewWorkspace page (frontend
source in the repository).  With a selected date, the date is combined
with the chosen time; a combined time strictly earlier than the current
time shows a validation error and sends no request, leaving the modal
untouched.  Otherwise the publish/schedule request is issued — with the
combined time when a date is selected, immediately (no publish time)
when none is — and the modal resets. -/
def handleConfirmPublish (workflowId : Option Nat) (m : PublishModal) (now : Nat) :
    ConfirmResult × PublishModal :=
  match workflowId, m.selectedPlatform with
  | none, _ => (.noRequest, m)
  | some _, none => (.noRequest, m)
  | some _, some p =>
    match m.scheduledDate with
    | some day =>
        let t := combineDateTime day m.scheduledHour m.scheduledMinute
        if t < now then (.invalidTime, m)
        else (.requested p (some t), resetModal)
    | none => (.requested p none, resetModal)

/-! Theorems. -/

/-- C1: after an evaluation, the routing decision is a pure function of
(score, threshold, iteration, maxIter): a score at or above the threshold
(inclusive bound) routes to awaiting_review; below threshold with
iteration < maxIter it routes to the regenerate loop (back to
generating); with retries exhausted it still routes to awaiting_review
and never to the error terminal state.  The evaluate transition's
successor status agrees with the routing function, and the configured
defaults are threshold 70 and maxIter 3. -/
theorem route_pure_decision (score threshold iter maxIter : Nat) :
    (threshold ≤ score →
      routeStatus ⟨threshold, maxIter⟩ score iter = .awaiting_review) ∧
    (score < threshold → iter < maxIter →
      routeStatus ⟨threshold, maxIter⟩ score iter = .generating) ∧
    (score < threshold → maxIter ≤ iter →
      routeStatus ⟨threshold, maxIter⟩ score iter = .awaiting_review) ∧
    routeStatus ⟨threshold, maxIter⟩ score iter ≠ .errorTerminal ∧
    (∀ (cfg : Config) (s : MachineState) (fb : String),
      (evaluateStep cfg s score fb).status = routeStatus cfg score s.iteration) ∧
    defaultConfig.threshold = 70 ∧ defaultConfig.maxIter = 3 := by
  refine ⟨fun h => ?_, fun h1 h2 => ?_, fun h1 h2 => ?_, ?_, fun cfg s fb => ?_, rfl, rfl⟩
  · simp [routeStatus, h]
  · simp only [routeStatus]
    rw [if_neg (by omega), if_pos h2]
  · simp only [routeStatus]
    rw [if_neg (by omega), if_neg (by omega)]
  · simp only [routeStatus]
    split
    · simp
    · split <;> simp
  · simp only [evaluateStep, routeStatus]
    split
    · simp [pauseForHuman]
    · split
      · simp [regenerate]
      · simp [pauseForHuman]

/-- Serialization round trip for a checkpoint payload. -/
theorem decode_encode_checkpoint (c : Checkpoint) :
    decodeCheckpoint (encodeCheckpoint c) = some c := by
  obtain ⟨st, ad, iter, ah⟩ := c
  cases st <;> cases ad <;> cases ah <;> rfl

/-- C7: saving a checkpoint of a platform state under its (workflow,
platform) key and loading the latest checkpoint for that key reproduces
the identical snapshot — same status, active draft id, iteration counter
and awaiting-human flag. -/
theorem checkpoint_save_load_roundtrip (log : CheckpointLog) (k : CheckpointKey)
    (s : MachineState) :
    loadCheckpoint (saveCheckpoint log k (checkpointOf s)) k = some (checkpointOf s) := by
  simp [loadCheckpoint, saveCheckpoint, List.find?]
  exact decode_encode_checkpoint _

/-- The validation predicate succeeds exactly when a platform is chosen
and the mode's source material is nonempty after trimming. -/
theorem specValid_iff (w : WorkflowSpec) :
    specValid w = true ↔
      w.platforms ≠ [] ∧
        (w.mode = .manual → blankStr w.content = false) ∧
        (w.mode = .template → blankStr w.goal = false) := by
  cases hm : w.mode <;>
    simp [specValid, hm, List.isEmpty_iff]

/-- C8: start fails with InvalidSpec — before any workflow or platform
state is created, leaving the store unchanged — when no platform is
requested, when manual mode has empty trimmed source content, or when
template mode has an empty trimmed goal; when validation passes it
persists the workflow with one initial platform state per requested
platform (status generating, iteration 0) and returns the fresh workflow
identifier. -/
theorem start_validates_then_persists (w : WorkflowSpec) (store : List StoredWorkflow) :
    ((w.platforms = [] ∨ (w.mode = .manual ∧ blankStr w.content = true) ∨
        (w.mode = .template ∧ blankStr w.goal = true)) →
      startWorkflow w store = (.error .invalidSpec, store)) ∧
    (w.platforms ≠ [] →
      (w.mode = .manual → blankStr w.content = false) →
      (w.mode = .template → blankStr w.goal = false) →
      startWorkflow w store =
        (.ok store.length, store ++ [⟨store.length, w.platforms.map initialRow⟩]) ∧
      ∀ r ∈ w.platforms.map initialRow, r.status = .generating ∧ r.iteration = 0) := by
  constructor
  · intro h
    have hv : specValid w = false := by
      cases hb : specValid w
      · rfl
      · exfalso
        obtain ⟨hp, hman, htem⟩ := (specValid_iff w).1 hb
        rcases h with h | ⟨h1, h2⟩ | ⟨h1, h2⟩
        · exact hp h
        · exact absurd h2 (by simp [hman h1])
        · exact absurd h2 (by simp [htem h1])
    simp [startWorkflow, hv]
  · intro h1 h2 h3
    have hv : specValid w = true := (specValid_iff w).2 ⟨h1, h2, h3⟩
    refine ⟨by simp [startWorkflow, hv], ?_⟩
    intro r hr
    simp only [List.mem_map] at hr
    obtain ⟨p, _, rfl⟩ := hr
    exact ⟨rfl, rfl⟩

/-- C8 witness: a concrete manual-mode spec with one platform and
nonempty content is persisted with one generating platform state at
iteration 0, and the empty-platform spec is rejected. -/
theorem start_validates_then_persists_witness :
    startWorkflow ⟨Mode.manual, "hello", "", [Platform.linkedin]⟩ [] =
      (.ok 0, [⟨0, [initialRow Platform.linkedin]⟩]) ∧
    startWorkflow ⟨Mode.manual, "hello", "", []⟩ [] = (.error .invalidSpec, []) := by
  have h1 := (start_validates_then_persists ⟨Mode.manual, "hello", "", [Platform.linkedin]⟩ []).2
    (by simp) (fun _ => by decide) (fun h => by simp at h)
  have h2 := (start_validates_then_persists ⟨Mode.manual, "hello", "", []⟩ []).1 (Or.inl rfl)
  exact ⟨h1.1, h2⟩

/-- C9: the external publish capability fires only after acceptance: a
publish/schedule request succeeds exactly when the platform state is
accepted, any other state is rejected with no job created, and the
review workspace offers the publish button exactly for accepted
platforms. -/
theorem publish_only_after_accept (row : PlatformStateRow) (t : Option Nat) :
    ((∃ j, publishPlatform row t = .ok j) ↔ row.status = .accepted) ∧
    (showPublishButton row.status = true ↔ row.status = .accepted) ∧
    (row.status ≠ .accepted → publishPlatform row t = .error .notAccepted) := by
  refine ⟨?_, ?_, fun h => ?_⟩
  · constructor
    · intro ⟨j, hj⟩
      by_cases hs : row.status = .accepted
      · exact hs
      · simp [publishPlatform, hs] at hj
    · intro hs
      refine ⟨{ platform := row.platform,
                status := match t with | some _ => .scheduled | none => .queued,
                scheduledFor := t }, ?_⟩
      rw [publishPlatform.eq_def, if_pos hs]
  · simp [showPublishButton]
  · simp [publishPlatform, h]

/-- C10: in the confirm-publish flow, a selected schedule date whose
combined date-and-time lies strictly before the current time produces a
validation error, sends no request and leaves the modal untouched; a
request is issued exactly when the combined time is not in the past
(carrying that time), or immediately with no publish time when no date
is selected. -/
theorem confirm_publish_validates_future (wid : Nat) (m : PublishModal) (now : Nat)
    (p : Platform) (day : Nat) :
    (m.selectedPlatform = some p → m.scheduledDate = some day →
      combineDateTime day m.scheduledHour m.scheduledMinute < now →
      handleConfirmPublish (some wid) m now = (.invalidTime, m)) ∧
    (m.selectedPlatform = some p → m.scheduledDate = some day →
      now ≤ combineDateTime day m.scheduledHour m.scheduledMinute →
      handleConfirmPublish (some wid) m now =
        (.requested p (some (combineDateTime day m.scheduledHour m.scheduledMinute)),
          resetModal)) ∧
    (m.selectedPlatform = some p → m.scheduledDate = none →
      handleConfirmPublish (some wid) m now = (.requested p none, resetModal)) ∧
    (m.selectedPlatform = none →
      handleConfirmPublish (some wid) m now = (.noRequest, m)) := by
  refine ⟨fun h1 h2 h3 => ?_, fun h1 h2 h3 => ?_, fun h1 h2 => ?_, fun h1 => ?_⟩
  · simp only [handleConfirmPublish, h1, h2]
    rw [if_pos h3]
  · simp only [handleConfirmPublish, h1, h2]
    rw [if_neg (by omega)]
  · simp [handleConfirmPublish, h1, h2]
  · simp [handleConfirmPublish, h1]

/-- A terminal platform status is not awaiting_review. -/
theorem isTerminal_not_awaiting {st : PSStatus} (h : isTerminalStatus st = true) :
    st ≠ .awaiting_review := by
  revert h
  cases st <;> decide

/-- A terminal platform status is not the error terminal status. -/
theorem isTerminal_not_errorTerminal {st : PSStatus} (h : isTerminalStatus st = true) :
    st ≠ .errorTerminal := by
  revert h
  cases st <;> decide

/-- C2 counterexample: with one platform paused at awaiting_review and a
second in the unrecoverable error terminal state (no platform still
generating), the claim's failed-iff condition holds — some platform is in
error and none are generating — yet the derived workflow status is
awaiting_review, not failed, so the failed-iff of the claim is false.
The claim's awaiting-iff demands awaiting_review on this very input, so
no aggregation function can satisfy the claim as stated. -/
theorem getstatus_failed_iff_cex :
    deriveWorkflowStatus [.awaiting_review, .errorTerminal] = .awaiting_review ∧
    ([PSStatus.awaiting_review, PSStatus.errorTerminal].any
        (fun st => st == .errorTerminal)) = true ∧
    ([PSStatus.awaiting_review, PSStatus.errorTerminal].any isGeneratingStatus) = false ∧
    deriveWorkflowStatus [.awaiting_review, .errorTerminal] ≠ .failed := by
  decide

/-- C2 (amended): the workflow status is derived from the per-platform
states: completed iff every platform state is accepted, published or
terminal-rejected; awaiting_review iff at least one platform is paused at
awaiting_review and none are still actively generating; failed iff some
platform is in the unrecoverable error terminal state, none are still
generating, and none are paused awaiting a human (a paused platform takes
precedence over a failed sibling); otherwise running.  In particular a
workflow with one platform paused and one still generating reports
running, not awaiting_review. -/
theorem getstatus_derived_amended (pss : List PSStatus) :
    (deriveWorkflowStatus pss = .completed ↔ ∀ st ∈ pss, isTerminalStatus st = true) ∧
    (deriveWorkflowStatus pss = .awaiting_review ↔
      ((∃ st ∈ pss, st = .awaiting_review) ∧ ∀ st ∈ pss, isGeneratingStatus st = false)) ∧
    (deriveWorkflowStatus pss = .failed ↔
      ((∃ st ∈ pss, st = .errorTerminal) ∧ (∀ st ∈ pss, isGeneratingStatus st = false) ∧
        ¬ ∃ st ∈ pss, st = .awaiting_review)) ∧
    deriveWorkflowStatus [.awaiting_review, .generating] = .running := by
  have hAll : pss.all isTerminalStatus = true ↔ ∀ st ∈ pss, isTerminalStatus st = true :=
    List.all_eq_true
  have hAw : pss.any hasAwaitingFlag = true ↔ ∃ st ∈ pss, st = .awaiting_review := by
    simp [List.any_eq_true, hasAwaitingFlag]
  have hErr : pss.any (fun st => st == .errorTerminal) = true ↔
      ∃ st ∈ pss, st = .errorTerminal := by
    simp [List.any_eq_true]
  have hGen : pss.any isGeneratingStatus = false ↔
      ∀ st ∈ pss, isGeneratingStatus st = false := by
    rw [← Bool.not_eq_true, List.any_eq_true]
    push_neg
    constructor
    · intro h st hm
      exact Bool.eq_false_iff.2 (h st hm)
    · intro h st hm
      exact Bool.eq_false_iff.1 (h st hm)
  have andE : ∀ {a b : Bool}, (a && b) = true → a = true ∧ b = true := by
    intro a b h
    constructor <;> simp_all
  have andI : ∀ {a b : Bool}, a = true → b = true → (a && b) = true := by
    intro a b ha hb
    simp [ha, hb]
  have notI : ∀ {b : Bool}, b = false → (!b) = true := by
    intro b hb
    simp [hb]
  have key :
      (deriveWorkflowStatus pss = .completed ↔ ∀ st ∈ pss, isTerminalStatus st = true) ∧
      (deriveWorkflowStatus pss = .awaiting_review ↔
        ((∃ st ∈ pss, st = .awaiting_review) ∧ ∀ st ∈ pss, isGeneratingStatus st = false)) ∧
      (deriveWorkflowStatus pss = .failed ↔
        ((∃ st ∈ pss, st = .errorTerminal) ∧ (∀ st ∈ pss, isGeneratingStatus st = false) ∧
          ¬ ∃ st ∈ pss, st = .awaiting_review)) := by
    simp only [deriveWorkflowStatus]
    split_ifs with h1 h2 h3
    · refine ⟨iff_of_true rfl (hAll.1 h1), iff_of_false (by simp) ?_,
        iff_of_false (by simp) ?_⟩
      · rintro ⟨⟨st, hm, rfl⟩, -⟩
        exact isTerminal_not_awaiting (hAll.1 h1 _ hm) rfl
      · rintro ⟨⟨st, hm, rfl⟩, -⟩
        exact isTerminal_not_errorTerminal (hAll.1 h1 _ hm) rfl
    · obtain ⟨h2a, h2b⟩ := andE h2
      rw [Bool.not_eq_true'] at h2b
      refine ⟨iff_of_false (by simp) (fun hall => h1 (hAll.2 hall)),
        iff_of_true rfl ⟨hAw.1 h2a, hGen.1 h2b⟩,
        iff_of_false (by simp) ?_⟩
      rintro ⟨-, -, hnaw⟩
      exact hnaw (hAw.1 h2a)
    · obtain ⟨h3a, h3b⟩ := andE h3
      rw [Bool.not_eq_true'] at h3b
      refine ⟨iff_of_false (by simp) (fun hall => h1 (hAll.2 hall)),
        iff_of_false (by simp) ?_, iff_of_true rfl ⟨hErr.1 h3a, hGen.1 h3b, ?_⟩⟩
      · rintro ⟨hex, hfa⟩
        exact h2 (andI (hAw.2 hex) (notI (hGen.2 hfa)))
      · intro hex
        exact h2 (andI (hAw.2 hex) (notI h3b))
    · refine ⟨iff_of_false (by simp) (fun hall => h1 (hAll.2 hall)),
        iff_of_false (by simp) ?_, iff_of_false (by simp) ?_⟩
      · rintro ⟨hex, hfa⟩
        exact h2 (andI (hAw.2 hex) (notI (hGen.2 hfa)))
      · rintro ⟨hex, hfa, -⟩
        exact h3 (andI (hErr.2 hex) (notI (hGen.2 hfa)))
  exact ⟨key.1, key.2.1, key.2.2, by decide⟩

/-- Inversion for a successful resume call: the platform was
awaiting_review and the result is the single applied transition. -/
theorem resume_eq_ok {s s' : MachineState} {d : Decision} (h : resume s d = .ok s') :
    s.status = .awaiting_review ∧ s' = applyDecision s d := by
  by_cases hs : s.status = .awaiting_review
  · rw [resume, if_pos hs] at h
    exact ⟨hs, (Except.ok.injEq _ _ ▸ h).symm⟩
  · rw [resume, if_neg hs] at h
    exact absurd h (by simp)

/-- A concrete platform state paused at awaiting_review with one active
ai draft, used to instantiate the resume-protocol theorems. -/
def reviewState : MachineState :=
  { status := .awaiting_review
    drafts := [⟨0, "v1", .ai, none⟩]
    activeDraftId := some 0
    superseded := []
    feedback := none
    lastScore := some 80
    iteration := 1
    awaitingHuman := true
    nextId := 1 }

/-- C3 counterexample: with the edit decision, a first resume on a
platform at awaiting_review succeeds and re-enters awaiting_review, so a
second resume with the very same decision succeeds as well instead of
yielding InvalidResume — the claim's blanket idempotence consequence is
false for edit. -/
theorem resume_twice_edit_cex :
    resume reviewState (Decision.edit "v2") =
      .ok (applyDecision reviewState (Decision.edit "v2")) ∧
    resume (applyDecision reviewState (Decision.edit "v2")) (Decision.edit "v2") ≠
      .error .invalidResume := by
  constructor
  · rfl
  · intro hcontra
    have hst : (applyDecision reviewState (Decision.edit "v2")).status = .awaiting_review := rfl
    rw [resume, if_pos hst] at hcontra
    exact absurd hcontra (by simp)

/-- C3 (amended): resume applies exactly one transition and only when the
platform is currently awaiting_review; on every other state it fails
synchronously with InvalidResume and no state is produced.  After a
successful accept, reject or editAndAccept the platform has left
awaiting_review, so a second resume — with the same or any decision —
yields InvalidResume and the decision is never double-applied; after a
successful edit the platform re-enters awaiting_review (the one decision
for which repeated resumes remain valid). -/
theorem resume_single_transition_amended (s s' : MachineState) (d d' : Decision) :
    (s.status ≠ .awaiting_review → resume s d = .error .invalidResume) ∧
    (resume s d = .ok s' → s.status = .awaiting_review ∧ s' = applyDecision s d) ∧
    ((d = .accept ∨ (∃ fb, d = .reject fb) ∨ (∃ c, d = .editAndAccept c)) →
      resume s d = .ok s' → resume s' d' = .error .invalidResume) ∧
    (∀ c, d = .edit c → resume s d = .ok s' → s'.status = .awaiting_review) := by
  refine ⟨fun h => by rw [resume, if_neg h], fun h => resume_eq_ok h, ?_, ?_⟩
  · intro hd h
    obtain ⟨-, rfl⟩ := resume_eq_ok h
    have hst : (applyDecision s d).status ≠ .awaiting_review := by
      rcases hd with rfl | ⟨fb, rfl⟩ | ⟨c, rfl⟩ <;> simp [applyDecision]
    rw [resume, if_neg hst]
  · intro c hd h
    obtain ⟨-, rfl⟩ := resume_eq_ok h
    subst hd
    rfl

/-- C4: on a platform paused at awaiting_review, the edit decision
creates a new draft with provenance human that supersedes the previous
active draft and returns the platform to awaiting_review (an explicit
accept is still required), while editAndAccept creates the same
human-authored draft and moves the platform to accepted in one step. -/
theorem edit_and_editAndAccept_spec (s : MachineState) (c : String)
    (h : s.status = .awaiting_review) :
    resume s (Decision.edit c) =
      .ok { newHumanDraft s c with status := .awaiting_review, awaitingHuman := true } ∧
    resume s (Decision.editAndAccept c) =
      .ok { newHumanDraft s c with status := .accepted, awaitingHuman := false } ∧
    (⟨s.nextId, c, Provenance.human, s.activeDraftId⟩ : Draft) ∈ (newHumanDraft s c).drafts ∧
    (newHumanDraft s c).activeDraftId = some s.nextId ∧
    (newHumanDraft s c).superseded = s.superseded ++ s.activeDraftId.toList := by
  refine ⟨?_, ?_, ?_, rfl, rfl⟩
  · rw [resume, if_pos h]
    rfl
  · rw [resume, if_pos h]
    rfl
  · simp [newHumanDraft]

/-- C4 witness: the edit decision applied to a concrete paused platform
state returns it to awaiting_review around the new human draft. -/
theorem edit_and_editAndAccept_spec_witness :
    resume reviewState (Decision.edit "new text") =
      .ok { newHumanDraft reviewState "new text" with
              status := .awaiting_review, awaitingHuman := true } :=
  (edit_and_editAndAccept_spec reviewState "new text" rfl).1

/-- Resume decisions never change the iteration counter: a human reject
is not counted against the automatic retry budget. -/
theorem applyDecision_iteration (s : MachineState) (d : Decision) :
    (applyDecision s d).iteration = s.iteration := by
  cases d <;> rfl

/-- Every transition — automatic or human-triggered — keeps the
iteration counter non-decreasing. -/
theorem step_iteration_mono {cfg : Config} {s s' : MachineState} (h : Step cfg s s') :
    s.iteration ≤ s'.iteration := by
  cases h with
  | auto ha =>
    cases ha with
    | generate c hg => exact Nat.le_succ _
    | evaluate score fb he =>
      simp only [evaluateStep]
      split
      · exact Nat.le.refl
      · split
        · exact Nat.le.refl
        · exact Nat.le.refl
  | human d hres =>
    obtain ⟨-, rfl⟩ := resume_eq_ok hres
    rw [applyDecision_iteration]

/-- The automatic loop's iteration invariant: the counter stays at or
below maxIter, strictly below it whenever a generation is about to
run. -/
theorem reachAuto_iter_le {cfg : Config} (hpos : 1 ≤ cfg.maxIter) {s : MachineState}
    (h : ReachAuto cfg s) :
    s.iteration ≤ cfg.maxIter ∧ (s.status = .generating → s.iteration < cfg.maxIter) := by
  induction h with
  | init => exact ⟨Nat.zero_le _, fun _ => hpos⟩
  | step hr hs ih =>
    obtain ⟨hle, hlt⟩ := ih
    cases hs with
    | generate c hg =>
      have hstrict := hlt hg
      refine ⟨hstrict, fun hcontra => ?_⟩
      exact absurd hcontra (by simp [generateStep])
    | evaluate score fb he =>
      simp only [evaluateStep]
      split
      · exact ⟨hle, fun hcontra => absurd hcontra (by simp [pauseForHuman])⟩
      · split
        · rename_i hiter
          exact ⟨hle, fun _ => hiter⟩
        · exact ⟨hle, fun hcontra => absurd hcontra (by simp [pauseForHuman])⟩

/-- C5: along every sequence of transitions the iteration counter is
non-decreasing; under any configuration allowing at least one iteration,
every state the automatic loop can reach has iteration at most maxIter;
and once the counter has reached maxIter the evaluate transition pauses
at awaiting_review whatever the score — the pause is forced before the
counter could be driven past the ceiling. -/
theorem iteration_mono_and_bounded (cfg : Config) (hpos : 1 ≤ cfg.maxIter) :
    (∀ s s', Step cfg s s' → s.iteration ≤ s'.iteration) ∧
    (∀ s, ReachAuto cfg s → s.iteration ≤ cfg.maxIter) ∧
    (∀ (s : MachineState) (score : Nat) (fb : String), cfg.maxIter ≤ s.iteration →
      (evaluateStep cfg s score fb).status = .awaiting_review) := by
  refine ⟨fun _ _ h => step_iteration_mono h, fun _ h => (reachAuto_iter_le hpos h).1, ?_⟩
  intro s score fb hge
  simp only [evaluateStep]
  split
  · simp [pauseForHuman]
  · split
    · rename_i hiter
      omega
    · simp [pauseForHuman]

/-- C5 witness: under the default configuration (maxIter 3) the initial
state is automatically reachable and its counter respects the bound. -/
theorem iteration_mono_and_bounded_witness :
    initState.iteration ≤ defaultConfig.maxIter :=
  (iteration_mono_and_bounded defaultConfig (by decide)).2.1 initState ReachAuto.init

/-- Whether a draft is the one the platform state marks active. -/
def isActiveDraft (s : MachineState) (d : Draft) : Bool :=
  decide (s.activeDraftId = some d.id)

/-- The drafts of the platform state that are marked active. -/
def activeDrafts (s : MachineState) : List Draft :=
  s.drafts.filter (isActiveDraft s)

/-- One based_on link of the draft store: the draft with id `a`
supersedes the draft with id `b`. -/
def BasedOnStep (s : MachineState) (a b : Nat) : Prop :=
  ∃ d ∈ s.drafts, d.id = a ∧ d.basedOn = some b

/-- The strict ancestor relation obtained by following based_on links. -/
def DraftAncestor (s : MachineState) : Nat → Nat → Prop :=
  Relation.TransGen (BasedOnStep s)

/-- Draft-store well-formedness: ids are below the allocator and pairwise
distinct, based_on links point strictly downwards, the active pointer
refers to a stored draft, and the evaluating and awaiting_review statuses
always carry an active pointer. -/
def DraftsWF (s : MachineState) : Prop :=
  (∀ d ∈ s.drafts, d.id < s.nextId) ∧
  (∀ d ∈ s.drafts, ∀ b, d.basedOn = some b → b < d.id) ∧
  (s.drafts.map Draft.id).Nodup ∧
  (∀ a, s.activeDraftId = some a → ∃ d ∈ s.drafts, d.id = a) ∧
  ((s.status = .evaluating ∨ s.status = .awaiting_review) → s.activeDraftId ≠ none)

/-- Appending a fresh draft (id from the allocator, based on the current
active pointer) preserves the list-level well-formedness facts. -/
theorem draftsWF_extend {drafts : List Draft} {nid : Nat} {act : Option Nat}
    (h1 : ∀ d ∈ drafts, d.id < nid)
    (h2 : ∀ d ∈ drafts, ∀ b, d.basedOn = some b → b < d.id)
    (h3 : (drafts.map Draft.id).Nodup)
    (h4 : ∀ a, act = some a → ∃ d ∈ drafts, d.id = a)
    (c : String) (p : Provenance) :
    (∀ d ∈ drafts ++ [⟨nid, c, p, act⟩], d.id < nid + 1) ∧
    (∀ d ∈ drafts ++ [⟨nid, c, p, act⟩], ∀ b, d.basedOn = some b → b < d.id) ∧
    ((drafts ++ [(⟨nid, c, p, act⟩ : Draft)]).map Draft.id).Nodup ∧
    (∀ a, (some nid : Option Nat) = some a →
      ∃ d ∈ drafts ++ [⟨nid, c, p, act⟩], d.id = a) := by
  refine ⟨?_, ?_, ?_, ?_⟩
  · intro d hd
    rcases List.mem_append.1 hd with hmem | hmem
    · exact Nat.lt_succ_of_lt (h1 d hmem)
    · simp only [List.mem_singleton] at hmem
      subst hmem
      exact Nat.lt_succ_self _
  · intro d hd b hb
    rcases List.mem_append.1 hd with hmem | hmem
    · exact h2 d hmem b hb
    · simp only [List.mem_singleton] at hmem
      subst hmem
      obtain ⟨d0, hd0, hid0⟩ := h4 b hb
      have := h1 d0 hd0
      show b < nid
      omega
  · rw [List.map_append, List.nodup_append]
    refine ⟨h3, List.nodup_singleton _, ?_⟩
    intro a ha ha2
    simp only [List.map_cons, List.map_nil, List.mem_singleton] at ha2
    subst ha2
    obtain ⟨d, hd, hid⟩ := List.mem_map.1 ha
    have := h1 d hd
    omega
  · intro a ha
    injection ha with ha2
    subst ha2
    exact ⟨⟨nid, c, p, act⟩, List.mem_append.2 (Or.inr (by simp)), rfl⟩

/-- Every reachable platform state has a well-formed draft store. -/
theorem reach_draftsWF {cfg : Config} {s : MachineState} (h : Reach cfg s) : DraftsWF s := by
  induction h with
  | init =>
    refine ⟨?_, ?_, ?_, ?_, ?_⟩ <;> simp [initState]
  | step hr hs ih =>
    obtain ⟨h1, h2, h3, h4, h5⟩ := ih
    cases hs with
    | auto ha =>
      cases ha with
      | generate c hg =>
        obtain ⟨g1, g2, g3, g4⟩ := draftsWF_extend h1 h2 h3 h4 c .ai
        exact ⟨g1, g2, g3, g4, fun _ => by simp [generateStep]⟩
      | evaluate score fb he =>
        simp only [evaluateStep]
        split
        · exact ⟨h1, h2, h3, h4, fun _ => h5 (Or.inl he)⟩
        · split
          · refine ⟨h1, h2, h3, ?_, ?_⟩
            · intro a ha2
              exact absurd ha2 (by simp [regenerate])
            · intro hst
              rcases hst with hc | hc <;> simp [regenerate] at hc
          · exact ⟨h1, h2, h3, h4, fun _ => h5 (Or.inl he)⟩
    | human d hres =>
      obtain ⟨hst, rfl⟩ := resume_eq_ok hres
      cases d with
      | accept =>
        refine ⟨h1, h2, h3, h4, ?_⟩
        intro hc
        simp [applyDecision] at hc
      | reject fb =>
        refine ⟨h1, h2, h3, ?_, ?_⟩
        · intro a ha2
          exact absurd ha2 (by simp [applyDecision])
        · intro hc
          simp [applyDecision] at hc
      | edit c =>
        obtain ⟨g1, g2, g3, g4⟩ := draftsWF_extend h1 h2 h3 h4 c .human
        exact ⟨g1, g2, g3, g4, fun _ => by simp [applyDecision, newHumanDraft]⟩
      | editAndAccept c =>
        obtain ⟨g1, g2, g3, g4⟩ := draftsWF_extend h1 h2 h3 h4 c .human
        refine ⟨g1, g2, g3, g4, ?_⟩
        intro hc
        simp [applyDecision] at hc

/-- A based_on ancestor always has a strictly smaller id, since every
link points strictly downwards. -/
theorem draftAncestor_lt {s : MachineState}
    (h2 : ∀ d ∈ s.drafts, ∀ b, d.basedOn = some b → b < d.id) {a b : Nat}
    (h : DraftAncestor s a b) : b < a := by
  induction h with
  | single hstep =>
    obtain ⟨d, hd, rfl, hb⟩ := hstep
    exact h2 d hd _ hb
  | tail hchain hstep ih =>
    obtain ⟨d, hd, rfl, hb⟩ := hstep
    have := h2 d hd _ hb
    omega

/-- On a draft list with pairwise-distinct ids, at most one draft matches
the active pointer. -/
theorem filter_active_le_one (l : List Draft) (h : (l.map Draft.id).Nodup)
    (o : Option Nat) :
    (l.filter (fun d => decide (o = some d.id))).length ≤ 1 := by
  induction l with
  | nil => simp
  | cons d tl ih =>
    simp only [List.map_cons, List.nodup_cons] at h
    obtain ⟨hni, hnd⟩ := h
    by_cases hda : o = some d.id
    · have htl : tl.filter (fun d2 => decide (o = some d2.id)) = [] := by
        rw [List.filter_eq_nil_iff]
        intro d2 hd2
        simp only [decide_eq_true_eq]
        intro hcontra
        rw [hda] at hcontra
        have hid : d.id = d2.id := Option.some.inj hcontra
        exact hni (hid.symm ▸ List.mem_map_of_mem Draft.id hd2)
      rw [List.filter_cons_of_pos (by simp [hda]), htl]
      simp
    · rw [List.filter_cons_of_neg (by simp [hda])]
      exact ih hnd

/-- When the pointed-to draft is stored and ids are pairwise distinct,
exactly one draft matches the active pointer. -/
theorem filter_active_eq_one (l : List Draft) (h : (l.map Draft.id).Nodup) (a : Nat)
    (hmem : ∃ d ∈ l, d.id = a) :
    (l.filter (fun d => decide ((some a : Option Nat) = some d.id))).length = 1 := by
  obtain ⟨d, hd, hid⟩ := hmem
  have hle := filter_active_le_one l h (some a)
  have hpos : 0 <
      (l.filter (fun d2 => decide ((some a : Option Nat) = some d2.id))).length := by
    apply List.length_pos_of_mem (a := d)
    exact List.mem_filter.2 ⟨hd, by simp [hid]⟩
  omega

/-- C6 counterexample: the freshly created platform state is reachable
in zero transitions and holds no draft at all, so no draft is marked
active — refuting that exactly one draft per platform state is marked
active at any time (the nullable active pointer of the schema allows
exactly this). -/
theorem exactly_one_active_cex :
    Reach defaultConfig initState ∧ (activeDrafts initState).length = 0 :=
  ⟨Reach.init, rfl⟩

/-- C6 (amended): in every reachable platform state the based_on
back-references form a simple chain without cycles — every link points to
a strictly older draft, so no draft is its own ancestor — at most one
draft is marked active at any time, and a platform state with status
awaiting_review always has a non-null active draft: exactly one draft is
active there. -/
theorem draft_chain_amended (cfg : Config) (s : MachineState) (h : Reach cfg s) :
    (∀ a b, DraftAncestor s a b → b < a) ∧
    (∀ a, ¬ DraftAncestor s a a) ∧
    (activeDrafts s).length ≤ 1 ∧
    (s.status = .awaiting_review → (activeDrafts s).length = 1) := by
  obtain ⟨h1, h2, h3, h4, h5⟩ := reach_draftsWF h
  refine ⟨fun a b hab => draftAncestor_lt h2 hab,
    fun a haa => absurd (draftAncestor_lt h2 haa) (lt_irrefl a),
    filter_active_le_one s.drafts h3 s.activeDraftId, ?_⟩
  intro hst
  have hact := h5 (Or.inr hst)
  obtain ⟨a, ha⟩ := Option.ne_none_iff_exists'.1 hact
  show (s.drafts.filter (fun d => decide (s.activeDraftId = some d.id))).length = 1
  simp only [ha]
  exact filter_active_eq_one s.drafts h3 a (h4 a ha)

/-- C6 witness: a concrete reachable paused state — one generate and one
passing evaluate from the initial state — has exactly one active draft
and an acyclic chain. -/
theorem draft_chain_amended_witness :
    (activeDrafts (evaluateStep defaultConfig (generateStep initState "post") 75 "")).length
      = 1 :=
  (draft_chain_amended defaultConfig
      (evaluateStep defaultConfig (generateStep initState "post") 75 "")
      (Reach.step
        (Reach.step Reach.init (Step.auto (AutoStep.generate "post" rfl)))
        (Step.auto (AutoStep.evaluate 75 "" rfl)))).2.2.2
    rfl

end MorphPost
